import Mathlib

/- Formal model of the amortization engine of the mortgage-calculator
   repository (src/App.jsx).  JavaScript numbers are modelled as exact
   rationals; NaN-producing `Number(...)` conversions are modelled with
   `Option ℚ` (`none` = NaN).  The unbounded `while (principal > EPSILON)`
   loop is modelled with fuel equal to the nominal number of years, which is
   proved sufficient for valid inputs (`outerLoop` consumes at most one unit
   of fuel per year-chunk, and for valid inputs the simulated balance reaches
   0 within the nominal term). -/

namespace Mortgage

/- const EPSILON = 0.01  (App.jsx line 5) -/
def EPSILON : ℚ := 1 / 100

/- One record pushed onto `monthlyPayments` (App.jsx lines 120-125). -/
structure MonthlyEntry where
  interestPayment : ℚ
  principalPayment : ℚ
  principal : ℚ
  totalPaid : ℚ
deriving DecidableEq

/- const termYears = { 0: 30, 1: 15 }[loanTerm]  (App.jsx line 86).
   The UI only ever submits the codes 0 and 1, hence the `Fin 2` domain. -/
def termYears (loanTerm : Fin 2) : ℕ :=
  if loanTerm = 0 then 30 else 15

/- Lines 92-95:
   i = interest / 12, a = i * (1+i)^termMonths, b = (1+i)^termMonths - 1,
   monthlyPayment = loanAmount * a / b. -/
def monthlyPaymentF (loanAmount interest : ℚ) (termMonths : ℕ) : ℚ :=
  let i := interest / 12
  let a := i * (1 + i) ^ termMonths
  let b := (1 + i) ^ termMonths - 1
  loanAmount * a / b

/- The body of the inner `for` loop (App.jsx lines 105-129): one month of the
   simulation.  Returns the recorded entry, the updated `principal` and the
   updated `totalPaid`. -/
def monthStep (interest monthlyPayment extraPrincipal principal totalPaid : ℚ) :
    MonthlyEntry × ℚ × ℚ :=
  let interestPayment := principal * interest / 12
  let principalPayment :=
    if principal ≤ monthlyPayment + extraPrincipal - interestPayment then principal
    else monthlyPayment + extraPrincipal - interestPayment
  let principal1 := principal - principalPayment
  let totalPaid1 := totalPaid + interestPayment + principalPayment
  let principal2 := if principal1 ≤ EPSILON then 0 else principal1
  (⟨interestPayment, principalPayment, principal2, totalPaid1⟩, principal2, totalPaid1)

/- The inner `for (let j = 0; j < 12; j++)` loop (lines 105-130), with `j`
   counting the months still allowed in the current year-chunk (12 at entry).
   The entry is recorded before the `break` test, and the loop breaks exactly
   when the zero-snap leaves `principal ≤ EPSILON`, as in the source. -/
def innerLoop (interest monthlyPayment extraPrincipal : ℚ) :
    ℕ → ℚ → ℚ → List MonthlyEntry × ℚ × ℚ
  | 0, principal, totalPaid => ([], principal, totalPaid)
  | j + 1, principal, totalPaid =>
    let s := monthStep interest monthlyPayment extraPrincipal principal totalPaid
    if s.2.1 ≤ EPSILON then ([s.1], s.2.1, s.2.2)
    else
      let r := innerLoop interest monthlyPayment extraPrincipal j s.2.1 s.2.2
      (s.1 :: r.1, r.2.1, r.2.2)

/- The outer `while (principal > EPSILON)` loop (lines 102-134).  Fuel bounds
   the number of year-chunks; `calcSim` supplies `termYears` units of fuel,
   which the development proves sufficient for valid inputs.  A chunk is only
   appended when non-empty, mirroring `if (monthlyPayments.length > 0)`. -/
def outerLoop (interest monthlyPayment extraPrincipal : ℚ) :
    ℕ → ℚ → ℚ → List (List MonthlyEntry) × ℚ × ℚ
  | 0, principal, totalPaid => ([], principal, totalPaid)
  | fuel + 1, principal, totalPaid =>
    if principal ≤ EPSILON then ([], principal, totalPaid)
    else
      let c := innerLoop interest monthlyPayment extraPrincipal 12 principal totalPaid
      let r := outerLoop interest monthlyPayment extraPrincipal fuel c.2.1 c.2.2
      (if 0 < c.1.length then c.1 :: r.1 else r.1, r.2.1, r.2.2)

/- The simulation part of `calculate` (lines 85-134): the list of year-chunks
   (`payments`), the final remaining principal and the final `totalPaid`. -/
def calcSim (loanAmount interest : ℚ) (loanTerm : Fin 2) (extraPrincipal : ℚ) :
    List (List MonthlyEntry) × ℚ × ℚ :=
  outerLoop interest (monthlyPaymentF loanAmount interest (termYears loanTerm * 12))
    extraPrincipal (termYears loanTerm) loanAmount 0

/- All recorded months, in order, across the whole simulation. -/
def simMonths (loanAmount interest : ℚ) (loanTerm : Fin 2) (extraPrincipal : ℚ) :
    List MonthlyEntry :=
  (calcSim loanAmount interest loanTerm extraPrincipal).1.flatten

/- Math.round, as used on lines 161-163 and 168-169.  JavaScript rounds
   half-up: Math.round(x) = floor(x + 0.5). -/
def jsRound (q : ℚ) : ℤ := ⌊q + 1 / 2⌋

/- yearInterest (lines 146-152): the sum of interestPayment over a chunk. -/
def yearInterest (monthlyPayments : List MonthlyEntry) : ℚ :=
  (monthlyPayments.map (fun e => e.interestPayment)).sum

/- yearPrincipal (lines 147-152). -/
def yearPrincipal (monthlyPayments : List MonthlyEntry) : ℚ :=
  (monthlyPayments.map (fun e => e.principalPayment)).sum

/- monthlyPayments[monthlyPayments.length - 1]?.principal ?? 0  (lines 157-158). -/
def lastPrincipal (monthlyPayments : List MonthlyEntry) : ℚ :=
  ((monthlyPayments.getLast?).map (fun e => e.principal)).getD 0

/- One row of `tableData` (lines 160-164), holding the Math.round results
   (currency-string formatting is presentation and is not modelled). -/
structure YearRow where
  interest : ℤ
  principal : ℤ
  principalBalance : ℤ
deriving DecidableEq

/- The value returned by `calculate` (lines 167-173).  `chartInterest` and
   `chartPrincipal` are the two chart datasets (lines 154-155), which hold the
   unrounded per-month averages. -/
structure CalcResult where
  monthlyPayment : ℤ
  totalPaid : ℤ
  totalYears : ℕ
  chartInterest : List ℚ
  chartPrincipal : List ℚ
  tableData : List YearRow
deriving DecidableEq

/- calculate (lines 85-174). -/
def calculate (loanAmount interest : ℚ) (loanTerm : Fin 2) (extraPrincipal : ℚ) :
    CalcResult :=
  let sim := calcSim loanAmount interest loanTerm extraPrincipal
  { monthlyPayment := jsRound (monthlyPaymentF loanAmount interest (termYears loanTerm * 12))
    totalPaid := jsRound sim.2.2
    totalYears := sim.1.length
    chartInterest := sim.1.map (fun c => yearInterest c / (c.length : ℚ))
    chartPrincipal := sim.1.map (fun c => yearPrincipal c / (c.length : ℚ))
    tableData := sim.1.map (fun c =>
      { interest := jsRound (yearInterest c)
        principal := jsRound (yearPrincipal c)
        principalBalance := jsRound (lastPrincipal c) }) }

/- The observable outcome of `handleSubmit` (lines 184-220): either an error
   message stored in `state.error`, or a computed result. -/
inductive Outcome where
  | failure (message : String)
  | success (result : CalcResult)
deriving DecidableEq

/- isNaN(x) || !x  (lines 191 and 193): `none` models NaN, and `!x` is true
   exactly on 0 for a non-NaN number. -/
def numInvalid : Option ℚ → Bool
  | none => true
  | some q => q == 0

/- isNaN(x) || x < 0  (line 195). -/
def extraPaymentInvalid : Option ℚ → Bool
  | none => true
  | some q => decide (q < 0)

/- handleSubmit (lines 184-220).  The arguments are the `Number(...)`
   conversions of the four form fields (`none` = NaN); the interest field is
   scaled by 0.01 before validation, as on line 188. -/
def handleSubmit (loanAmountN interestN extraN : Option ℚ) (loanTerm : Fin 2) :
    Outcome :=
  let interestScaled := interestN.map (fun q => q * (1 / 100))
  if numInvalid loanAmountN then Outcome.failure "Loan amount is invalid"
  else if numInvalid interestScaled then Outcome.failure "Interest is invalid"
  else if extraPaymentInvalid extraN then Outcome.failure "Extra monthly payment is invalid"
  else Outcome.success
    (calculate (loanAmountN.getD 0) ((interestN.getD 0) * (1 / 100)) loanTerm (extraN.getD 0))

/- ------------------------------------------------------------------ -/
/- Helper list lemmas                                                  -/
/- ------------------------------------------------------------------ -/

/- Last element of a list, with a default for the empty list. -/
def lastD {α : Type} : List α → α → α
  | [], d => d
  | a :: l, _ => lastD l a

theorem lastD_nil {α : Type} (d : α) : lastD [] d = d := rfl

theorem lastD_cons {α : Type} (a : α) (l : List α) (d : α) :
    lastD (a :: l) d = lastD l a := rfl

theorem lastD_map {α β : Type} (f : α → β) (l : List α) (d : α) :
    lastD (l.map f) (f d) = f (lastD l d) := by
  induction l generalizing d with
  | nil => rfl
  | cons a l ih => exact ih a

theorem lastD_irrel {α : Type} (l : List α) (h : l ≠ []) (d₁ d₂ : α) :
    lastD l d₁ = lastD l d₂ := by
  cases l with
  | nil => exact absurd rfl h
  | cons a l => rfl

theorem lastD_mem {α : Type} (l : List α) (h : l ≠ []) (d : α) :
    lastD l d ∈ l := by
  induction l generalizing d with
  | nil => exact absurd rfl h
  | cons a l ih =>
    cases l with
    | nil => exact List.mem_singleton.mpr rfl
    | cons b l => exact List.mem_cons_of_mem a (ih (by simp) a)

theorem lastD_append {α : Type} (l₁ l₂ : List α) (d : α) :
    lastD (l₁ ++ l₂) d = lastD l₂ (lastD l₁ d) := by
  induction l₁ generalizing d with
  | nil => rfl
  | cons a l ih => exact ih a

theorem chain_append_lastD {α : Type} {R : α → α → Prop} {a : α} {l₁ l₂ : List α}
    (h₁ : List.Chain R a l₁) (h₂ : List.Chain R (lastD l₁ a) l₂) :
    List.Chain R a (l₁ ++ l₂) := by
  induction l₁ generalizing a with
  | nil => exact h₂
  | cons b l ih =>
    rcases h₁ with _ | ⟨hab, hbl⟩
    exact List.Chain.cons hab (ih hbl h₂)

/- ------------------------------------------------------------------ -/
/- The per-month step relation                                         -/
/- ------------------------------------------------------------------ -/

/- The relation between the balance q at the start of a month and the
   MonthlyEntry the simulation records for that month: interest accrues on q,
   the principal payment is the constant base payment plus the extra payment
   minus interest (clamped to q), and the recorded balance is the new balance
   with the zero-snap applied. -/
def stepRel (interest monthlyPayment extraPrincipal : ℚ) (q : ℚ) (e : MonthlyEntry) : Prop :=
  e.interestPayment = q * interest / 12 ∧
  e.principalPayment =
    (if q ≤ monthlyPayment + extraPrincipal - e.interestPayment then q
     else monthlyPayment + extraPrincipal - e.interestPayment) ∧
  e.principal =
    (if q - e.principalPayment ≤ EPSILON then 0 else q - e.principalPayment)

theorem epsilon_pos : 0 < EPSILON := by norm_num [EPSILON]

theorem monthStep_stepRel (interest mp extra p t : ℚ) :
    stepRel interest mp extra p (monthStep interest mp extra p t).1 :=
  ⟨rfl, rfl, rfl⟩

theorem monthStep_principal_eq (interest mp extra p t : ℚ) :
    (monthStep interest mp extra p t).1.principal = (monthStep interest mp extra p t).2.1 :=
  rfl

theorem monthStep_totalPaid_eq (interest mp extra p t : ℚ) :
    (monthStep interest mp extra p t).2.2 =
      t + ((monthStep interest mp extra p t).1.interestPayment +
        (monthStep interest mp extra p t).1.principalPayment) := by
  show t + p * interest / 12 +
      (if p ≤ mp + extra - p * interest / 12 then p else mp + extra - p * interest / 12) =
    t + (p * interest / 12 +
      (if p ≤ mp + extra - p * interest / 12 then p else mp + extra - p * interest / 12))
  ring

/- Facts provable from the step relation alone. -/

theorem stepRel_presnap_nonneg {interest mp extra q : ℚ} {e : MonthlyEntry}
    (h : stepRel interest mp extra q e) : 0 ≤ q - e.principalPayment := by
  rcases h with ⟨-, h₂, -⟩
  rw [h₂]
  split
  · simp
  · next h => push_neg at h; linarith

theorem stepRel_principal_nonneg {interest mp extra q : ℚ} {e : MonthlyEntry}
    (h : stepRel interest mp extra q e) : 0 ≤ e.principal := by
  have h₀ := stepRel_presnap_nonneg h
  rcases h with ⟨-, -, h₃⟩
  rw [h₃]
  split
  · exact le_refl 0
  · exact h₀

theorem stepRel_snap {interest mp extra q : ℚ} {e : MonthlyEntry}
    (h : stepRel interest mp extra q e) (hle : e.principal ≤ EPSILON) : e.principal = 0 := by
  rcases h with ⟨-, -, h₃⟩
  by_cases hc : q - e.principalPayment ≤ EPSILON
  · rw [h₃, if_pos hc]
  · rw [h₃, if_neg hc] at hle
    exact absurd hle hc

theorem stepRel_gt_presnap {interest mp extra q : ℚ} {e : MonthlyEntry}
    (h : stepRel interest mp extra q e) (hgt : EPSILON < e.principal) :
    e.principal = q - e.principalPayment := by
  rcases h with ⟨-, -, h₃⟩
  by_cases hc : q - e.principalPayment ≤ EPSILON
  · rw [h₃, if_pos hc] at hgt
    exact absurd hgt (by linarith [epsilon_pos])
  · rw [h₃, if_neg hc]

theorem stepRel_clamp_iff {interest mp extra q : ℚ} {e : MonthlyEntry}
    (h : stepRel interest mp extra q e) :
    q - e.principalPayment = 0 ↔ e.principalPayment = q := by
  rcases h with ⟨-, h₂, -⟩
  constructor
  · intro h0
    linarith
  · intro hq
    rw [hq]
    ring

theorem stepRel_pp_nonneg {interest mp extra q P0 : ℚ} {e : MonthlyEntry}
    (h : stepRel interest mp extra q e) (h0 : 0 ≤ q) (hP : q ≤ P0)
    (hi : 0 ≤ interest) (hpay : P0 * interest / 12 ≤ mp + extra) :
    0 ≤ e.principalPayment := by
  have hqi : q * interest ≤ P0 * interest := mul_le_mul_of_nonneg_right hP hi
  rcases h with ⟨h₁, h₂, -⟩
  rw [h₂, h₁]
  split
  · exact h0
  · linarith

theorem stepRel_principal_le {interest mp extra q P0 : ℚ} {e : MonthlyEntry}
    (h : stepRel interest mp extra q e) (h0 : 0 ≤ q) (hP : q ≤ P0)
    (hi : 0 ≤ interest) (hpay : P0 * interest / 12 ≤ mp + extra) :
    e.principal ≤ q := by
  have hpp : 0 ≤ e.principalPayment := stepRel_pp_nonneg h h0 hP hi hpay
  rcases h with ⟨-, -, h₃⟩
  rw [h₃]
  split
  · exact h0
  · linarith

/- ------------------------------------------------------------------ -/
/- Inner loop lemmas                                                   -/
/- ------------------------------------------------------------------ -/

theorem innerLoop_ne_nil (interest mp extra : ℚ) (j : ℕ) (hj : j ≠ 0) (p t : ℚ) :
    (innerLoop interest mp extra j p t).1 ≠ [] := by
  cases j with
  | zero => exact absurd rfl hj
  | succ j =>
    simp only [innerLoop]
    split <;> simp

theorem innerLoop_chain (interest mp extra : ℚ) :
    ∀ (j : ℕ) (p t : ℚ) (e0 : MonthlyEntry), e0.principal = p →
      List.Chain (fun a b => stepRel interest mp extra a.principal b) e0
        (innerLoop interest mp extra j p t).1 := by
  intro j
  induction j with
  | zero => intro p t e0 he; exact List.Chain.nil
  | succ j ih =>
    intro p t e0 he
    subst he
    simp only [innerLoop]
    split
    · exact List.Chain.cons (monthStep_stepRel _ _ _ _ _) List.Chain.nil
    · exact List.Chain.cons (monthStep_stepRel _ _ _ _ _)
        (ih _ _ _ (monthStep_principal_eq _ _ _ _ _))

theorem innerLoop_last (interest mp extra : ℚ) :
    ∀ (j : ℕ) (p t : ℚ),
      lastD ((innerLoop interest mp extra j p t).1.map (fun e => e.principal)) p =
        (innerLoop interest mp extra j p t).2.1 := by
  intro j
  induction j with
  | zero => intro p t; rfl
  | succ j ih =>
    intro p t
    simp only [innerLoop]
    split
    · rfl
    · exact ih _ _

theorem innerLoop_totalPaid (interest mp extra : ℚ) :
    ∀ (j : ℕ) (p t : ℚ),
      (innerLoop interest mp extra j p t).2.2 =
        t + (((innerLoop interest mp extra j p t).1).map
          (fun e => e.interestPayment + e.principalPayment)).sum := by
  intro j
  induction j with
  | zero => intro p t; simp [innerLoop]
  | succ j ih =>
    intro p t
    simp only [innerLoop]
    split
    · show (monthStep interest mp extra p t).2.2 = _
      rw [monthStep_totalPaid_eq]
      simp
    · show (innerLoop interest mp extra j _ _).2.2 = _
      rw [ih]
      simp only [List.map_cons, List.sum_cons]
      rw [monthStep_totalPaid_eq]
      ring

theorem innerLoop_sumPP (interest mp extra : ℚ) :
    ∀ (j : ℕ) (p t : ℚ),
      (p - (((innerLoop interest mp extra j p t).1).map (fun e => e.principalPayment)).sum
          = (innerLoop interest mp extra j p t).2.1) ∨
      (0 ≤ p - (((innerLoop interest mp extra j p t).1).map (fun e => e.principalPayment)).sum ∧
        p - (((innerLoop interest mp extra j p t).1).map (fun e => e.principalPayment)).sum
          ≤ EPSILON ∧
        (innerLoop interest mp extra j p t).2.1 = 0) := by
  intro j
  induction j with
  | zero => intro p t; left; simp [innerLoop]
  | succ j ih =>
    intro p t
    have hstep := monthStep_stepRel interest mp extra p t
    have hpre : 0 ≤ p - (monthStep interest mp extra p t).1.principalPayment :=
      stepRel_presnap_nonneg hstep
    have h₃ := hstep.2.2
    rw [monthStep_principal_eq] at h₃
    simp only [innerLoop]
    split
    · by_cases hc : p - (monthStep interest mp extra p t).1.principalPayment ≤ EPSILON
      · right
        refine ⟨by simpa using hpre, by simpa using hc, ?_⟩
        show (monthStep interest mp extra p t).2.1 = 0
        rw [h₃, if_pos hc]
      · left
        show p - ((List.map (fun e => e.principalPayment)
            [(monthStep interest mp extra p t).1]).sum) = (monthStep interest mp extra p t).2.1
        simp only [List.map_cons, List.map_nil, List.sum_cons, List.sum_nil, add_zero]
        rw [h₃, if_neg hc]
    · next hgt =>
      have hc : ¬ p - (monthStep interest mp extra p t).1.principalPayment ≤ EPSILON := by
        intro hc
        exact hgt (by rw [h₃, if_pos hc]; exact le_of_lt epsilon_pos)
      have hfin : (monthStep interest mp extra p t).2.1 =
          p - (monthStep interest mp extra p t).1.principalPayment := by
        rw [h₃, if_neg hc]
      rcases ih (monthStep interest mp extra p t).2.1 (monthStep interest mp extra p t).2.2 with
        hres | ⟨h1, h2, h3⟩
      · left
        show p - _ = _
        simp only [List.map_cons, List.sum_cons]
        rw [← hres, hfin]
        ring
      · right
        simp only [List.map_cons, List.sum_cons]
        refine ⟨by linarith [hfin, h1], by linarith [hfin, h2], h3⟩

theorem innerLoop_dropLast_gt (interest mp extra : ℚ) :
    ∀ (j : ℕ) (p t : ℚ),
      (∀ e ∈ ((innerLoop interest mp extra j p t).1).dropLast, EPSILON < e.principal) ∧
      (EPSILON < (innerLoop interest mp extra j p t).2.1 →
        ∀ e ∈ (innerLoop interest mp extra j p t).1, EPSILON < e.principal) := by
  intro j
  induction j with
  | zero => intro p t; exact ⟨by simp [innerLoop], fun _ => by simp [innerLoop]⟩
  | succ j ih =>
    intro p t
    simp only [innerLoop]
    split
    · next hle =>
      refine ⟨by simp, fun h => absurd h (not_lt.mpr hle)⟩
    · next hgt =>
      push_neg at hgt
      rcases ih (monthStep interest mp extra p t).2.1 (monthStep interest mp extra p t).2.2 with
        ⟨ihdrop, ihall⟩
      constructor
      · show ∀ e ∈ ((monthStep interest mp extra p t).1 ::
            (innerLoop interest mp extra j _ _).1).dropLast, EPSILON < e.principal
        cases hr : (innerLoop interest mp extra j (monthStep interest mp extra p t).2.1
            (monthStep interest mp extra p t).2.2).1 with
        | nil => simp
        | cons b l =>
          rw [List.dropLast_cons₂]
          intro e he
          rcases List.mem_cons.mp he with rfl | he'
          · rw [monthStep_principal_eq]; exact hgt
          · rw [← hr] at he'
            exact ihdrop e (by rw [hr]; rw [hr] at he'; exact he')
      · intro hfin e he
        rcases List.mem_cons.mp he with rfl | he'
        · rw [monthStep_principal_eq]; exact hgt
        · exact ihall hfin e he'

theorem innerLoop_final_bounds (interest mp extra P0 : ℚ)
    (hi : 0 ≤ interest) (hpay : P0 * interest / 12 ≤ mp + extra) :
    ∀ (j : ℕ) (p t : ℚ), 0 ≤ p → p ≤ P0 →
      0 ≤ (innerLoop interest mp extra j p t).2.1 ∧
        (innerLoop interest mp extra j p t).2.1 ≤ p := by
  intro j
  induction j with
  | zero => intro p t h0 hP; exact ⟨h0, le_refl p⟩
  | succ j ih =>
    intro p t h0 hP
    have hstep := monthStep_stepRel interest mp extra p t
    have hnn : 0 ≤ (monthStep interest mp extra p t).2.1 := by
      rw [← monthStep_principal_eq]; exact stepRel_principal_nonneg hstep
    have hle : (monthStep interest mp extra p t).2.1 ≤ p := by
      rw [← monthStep_principal_eq]; exact stepRel_principal_le hstep h0 hP hi hpay
    simp only [innerLoop]
    split
    · exact ⟨hnn, hle⟩
    · rcases ih (monthStep interest mp extra p t).2.1 (monthStep interest mp extra p t).2.2
        hnn (le_trans hle hP) with ⟨ih0, ih1⟩
      exact ⟨ih0, le_trans ih1 hle⟩

/- ------------------------------------------------------------------ -/
/- Outer loop lemmas                                                   -/
/- ------------------------------------------------------------------ -/

theorem outerLoop_stops (interest mp extra : ℚ) (fuel : ℕ) (p t : ℚ) (h : p ≤ EPSILON) :
    outerLoop interest mp extra fuel p t = ([], p, t) := by
  cases fuel with
  | zero => rfl
  | succ f => simp only [outerLoop, if_pos h]

theorem outerLoop_len_le (interest mp extra : ℚ) :
    ∀ (fuel : ℕ) (p t : ℚ), (outerLoop interest mp extra fuel p t).1.length ≤ fuel := by
  intro fuel
  induction fuel with
  | zero => intro p t; exact Nat.le_refl 0
  | succ f ih =>
    intro p t
    simp only [outerLoop]
    split
    · simp
    · dsimp only
      split
      · simp only [List.length_cons]
        exact Nat.succ_le_succ (ih _ _)
      · exact Nat.le_succ_of_le (ih _ _)

theorem getLast?_cons_lastD {α : Type} :
    ∀ (l : List α) (a : α), (a :: l).getLast? = some (lastD l a) := by
  intro l
  induction l with
  | nil => intro a; rfl
  | cons b l ih =>
    intro a
    rw [List.getLast?_cons_cons]
    exact ih b

theorem lastPrincipal_eq_lastD (c : List MonthlyEntry) (h : c ≠ []) (d : ℚ) :
    lastPrincipal c = lastD (c.map (fun e => e.principal)) d := by
  cases c with
  | nil => exact absurd rfl h
  | cons a l =>
    show ((( a :: l).getLast?).map (fun e => e.principal)).getD 0 = _
    rw [getLast?_cons_lastD]
    show (lastD l a).principal = lastD ((a :: l).map (fun e => e.principal)) d
    rw [List.map_cons, lastD_cons, lastD_map]

theorem outerLoop_chain (interest mp extra : ℚ) :
    ∀ (fuel : ℕ) (p t : ℚ) (e0 : MonthlyEntry), e0.principal = p →
      List.Chain (fun a b => stepRel interest mp extra a.principal b) e0
        ((outerLoop interest mp extra fuel p t).1.flatten) := by
  intro fuel
  induction fuel with
  | zero => intro p t e0 he; exact List.Chain.nil
  | succ f ih =>
    intro p t e0 he
    simp only [outerLoop]
    split
    · exact List.Chain.nil
    · have hcne := innerLoop_ne_nil interest mp extra 12 (by simp) p t
      have hlen : 0 < (innerLoop interest mp extra 12 p t).1.length := List.length_pos.mpr hcne
      dsimp only
      rw [if_pos hlen, List.flatten_cons]
      apply chain_append_lastD (innerLoop_chain interest mp extra 12 p t e0 he)
      apply ih
      have hmap := lastD_map (fun e => e.principal) (innerLoop interest mp extra 12 p t).1 e0
      rw [he] at hmap
      rw [← hmap]
      exact innerLoop_last interest mp extra 12 p t

theorem outerLoop_last (interest mp extra : ℚ) :
    ∀ (fuel : ℕ) (p t : ℚ),
      lastD (((outerLoop interest mp extra fuel p t).1.flatten).map (fun e => e.principal)) p =
        (outerLoop interest mp extra fuel p t).2.1 := by
  intro fuel
  induction fuel with
  | zero => intro p t; rfl
  | succ f ih =>
    intro p t
    simp only [outerLoop]
    split
    · rfl
    · have hcne := innerLoop_ne_nil interest mp extra 12 (by simp) p t
      have hlen : 0 < (innerLoop interest mp extra 12 p t).1.length := List.length_pos.mpr hcne
      dsimp only
      rw [if_pos hlen, List.flatten_cons, List.map_append, lastD_append]
      rw [innerLoop_last interest mp extra 12 p t]
      exact ih _ _

theorem outerLoop_totalPaid (interest mp extra : ℚ) :
    ∀ (fuel : ℕ) (p t : ℚ),
      (outerLoop interest mp extra fuel p t).2.2 =
        t + (((outerLoop interest mp extra fuel p t).1.flatten).map
          (fun e => e.interestPayment + e.principalPayment)).sum := by
  intro fuel
  induction fuel with
  | zero => intro p t; simp [outerLoop]
  | succ f ih =>
    intro p t
    simp only [outerLoop]
    split
    · simp
    · have hcne := innerLoop_ne_nil interest mp extra 12 (by simp) p t
      have hlen : 0 < (innerLoop interest mp extra 12 p t).1.length := List.length_pos.mpr hcne
      dsimp only
      rw [if_pos hlen, List.flatten_cons, List.map_append, List.sum_append]
      show (outerLoop interest mp extra f _ _).2.2 = _
      rw [ih, innerLoop_totalPaid]
      ring

theorem outerLoop_sumPP (interest mp extra : ℚ) :
    ∀ (fuel : ℕ) (p t : ℚ),
      (p - (((outerLoop interest mp extra fuel p t).1.flatten).map
            (fun e => e.principalPayment)).sum
          = (outerLoop interest mp extra fuel p t).2.1) ∨
      (0 ≤ p - (((outerLoop interest mp extra fuel p t).1.flatten).map
            (fun e => e.principalPayment)).sum ∧
        p - (((outerLoop interest mp extra fuel p t).1.flatten).map
            (fun e => e.principalPayment)).sum ≤ EPSILON ∧
        (outerLoop interest mp extra fuel p t).2.1 = 0) := by
  intro fuel
  induction fuel with
  | zero => intro p t; left; simp [outerLoop]
  | succ f ih =>
    intro p t
    simp only [outerLoop]
    split
    · left; simp
    · have hcne := innerLoop_ne_nil interest mp extra 12 (by simp) p t
      have hlen : 0 < (innerLoop interest mp extra 12 p t).1.length := List.length_pos.mpr hcne
      dsimp only
      rw [if_pos hlen, List.flatten_cons, List.map_append, List.sum_append]
      rcases innerLoop_sumPP interest mp extra 12 p t with hres | ⟨h1, h2, h3⟩
      · rcases ih (innerLoop interest mp extra 12 p t).2.1
          (innerLoop interest mp extra 12 p t).2.2 with hres' | ⟨h1', h2', h3'⟩
        · left
          show p - _ = (outerLoop interest mp extra f _ _).2.1
          rw [← hres']
          linarith [hres]
        · right
          refine ⟨by linarith [hres, h1'], by linarith [hres, h2'], h3'⟩
      · rw [h3, outerLoop_stops interest mp extra f 0
          (innerLoop interest mp extra 12 p t).2.2 (le_of_lt epsilon_pos)]
        right
        simp only [List.flatten_nil, List.map_nil, List.sum_nil, add_zero]
        exact ⟨h1, h2, trivial⟩

theorem outerLoop_dropLast_gt (interest mp extra : ℚ) :
    ∀ (fuel : ℕ) (p t : ℚ),
      ∀ e ∈ (((outerLoop interest mp extra fuel p t).1.flatten).dropLast),
        EPSILON < e.principal := by
  intro fuel
  induction fuel with
  | zero => intro p t; simp [outerLoop]
  | succ f ih =>
    intro p t
    simp only [outerLoop]
    split
    · simp
    · have hcne := innerLoop_ne_nil interest mp extra 12 (by simp) p t
      have hlen : 0 < (innerLoop interest mp extra 12 p t).1.length := List.length_pos.mpr hcne
      dsimp only
      rw [if_pos hlen, List.flatten_cons]
      by_cases hr : ((outerLoop interest mp extra f (innerLoop interest mp extra 12 p t).2.1
          (innerLoop interest mp extra 12 p t).2.2).1.flatten) = []
      · rw [hr, List.append_nil]
        exact (innerLoop_dropLast_gt interest mp extra 12 p t).1
      · rw [List.dropLast_append_of_ne_nil _ hr]
        intro e he
        rcases List.mem_append.mp he with he' | he'
        · have hfin : EPSILON < (innerLoop interest mp extra 12 p t).2.1 := by
            by_contra hle
            push_neg at hle
            rw [outerLoop_stops interest mp extra f _ _ hle] at hr
            exact hr rfl
          exact (innerLoop_dropLast_gt interest mp extra 12 p t).2 hfin e he'
        · exact ih _ _ e he'

theorem outerLoop_final_bounds (interest mp extra P0 : ℚ)
    (hi : 0 ≤ interest) (hpay : P0 * interest / 12 ≤ mp + extra) :
    ∀ (fuel : ℕ) (p t : ℚ), 0 ≤ p → p ≤ P0 →
      0 ≤ (outerLoop interest mp extra fuel p t).2.1 ∧
        (outerLoop interest mp extra fuel p t).2.1 ≤ p := by
  intro fuel
  induction fuel with
  | zero => intro p t h0 hP; exact ⟨h0, le_refl p⟩
  | succ f ih =>
    intro p t h0 hP
    simp only [outerLoop]
    split
    · exact ⟨h0, le_refl p⟩
    · rcases innerLoop_final_bounds interest mp extra P0 hi hpay 12 p t h0 hP with ⟨hc0, hc1⟩
      rcases ih (innerLoop interest mp extra 12 p t).2.1 (innerLoop interest mp extra 12 p t).2.2
        hc0 (le_trans hc1 hP) with ⟨ih0, ih1⟩
      exact ⟨ih0, le_trans ih1 hc1⟩

theorem outerLoop_flatten_ne_nil (interest mp extra : ℚ) (fuel : ℕ) (p t : ℚ)
    (hp : EPSILON < p) (hf : fuel ≠ 0) :
    ((outerLoop interest mp extra fuel p t).1.flatten) ≠ [] := by
  cases fuel with
  | zero => exact absurd rfl hf
  | succ f =>
    have hcne := innerLoop_ne_nil interest mp extra 12 (by simp) p t
    have hlen : 0 < (innerLoop interest mp extra 12 p t).1.length := List.length_pos.mpr hcne
    simp only [outerLoop, if_neg (not_le.mpr hp)]
    rw [if_pos hlen, List.flatten_cons]
    intro hh
    exact hcne (List.append_eq_nil.mp hh).1

theorem outerLoop_lastChunk (interest mp extra : ℚ) :
    ∀ (fuel : ℕ) (p t : ℚ),
      lastD ((outerLoop interest mp extra fuel p t).1.map lastPrincipal) p =
        (outerLoop interest mp extra fuel p t).2.1 := by
  intro fuel
  induction fuel with
  | zero => intro p t; rfl
  | succ f ih =>
    intro p t
    simp only [outerLoop]
    split
    · rfl
    · have hcne := innerLoop_ne_nil interest mp extra 12 (by simp) p t
      have hlen : 0 < (innerLoop interest mp extra 12 p t).1.length := List.length_pos.mpr hcne
      rw [if_pos hlen, List.map_cons, lastD_cons]
      rw [lastPrincipal_eq_lastD _ hcne p, innerLoop_last interest mp extra 12 p t]
      exact ih _ _

/- ------------------------------------------------------------------ -/
/- The scheduled-balance bound and termination                         -/
/- ------------------------------------------------------------------ -/

theorem monthlyPaymentF_def (L interest : ℚ) (n : ℕ) :
    monthlyPaymentF L interest n =
      L * (interest / 12 * (1 + interest / 12) ^ n) / ((1 + interest / 12) ^ n - 1) := rfl

/- The closed-form balance of the exactly-amortizing schedule after k months:
   the simulated balance never exceeds it, which bounds the loop length. -/
def schedBal (loanAmount interest : ℚ) (n k : ℕ) : ℚ :=
  loanAmount * ((1 + interest / 12) ^ n - (1 + interest / 12) ^ k) /
    ((1 + interest / 12) ^ n - 1)

theorem one_lt_growth {interest : ℚ} (hi : 0 < interest) : 1 < 1 + interest / 12 := by
  linarith

theorem growth_pow_gt_one {interest : ℚ} (hi : 0 < interest) {n : ℕ} (hn : n ≠ 0) :
    1 < (1 + interest / 12) ^ n :=
  one_lt_pow₀ (one_lt_growth hi) hn

theorem schedBal_zero {L interest : ℚ} (hi : 0 < interest) {n : ℕ} (hn : n ≠ 0) :
    schedBal L interest n 0 = L := by
  have hd : (1 + interest / 12) ^ n - 1 ≠ 0 := by
    have := growth_pow_gt_one hi hn
    intro hz
    linarith [sub_eq_zero.mp hz]
  unfold schedBal
  rw [pow_zero, mul_div_assoc, div_self hd, mul_one]

theorem schedBal_last (L interest : ℚ) (n : ℕ) : schedBal L interest n n = 0 := by
  unfold schedBal
  simp

theorem schedBal_nonneg {L interest : ℚ} (hL : 0 ≤ L) (hi : 0 < interest) {n k : ℕ}
    (hn : n ≠ 0) (hk : k ≤ n) : 0 ≤ schedBal L interest n k := by
  have hc := one_lt_growth hi
  have hpow : (1 + interest / 12) ^ k ≤ (1 + interest / 12) ^ n :=
    pow_le_pow_right₀ (le_of_lt hc) hk
  have hd : 0 < (1 + interest / 12) ^ n - 1 := by linarith [growth_pow_gt_one hi hn]
  exact div_nonneg (mul_nonneg hL (by linarith)) (le_of_lt hd)

theorem schedBal_succ {L interest : ℚ} (hi : 0 < interest) {n : ℕ} (hn : n ≠ 0) (k : ℕ) :
    schedBal L interest n k * (1 + interest / 12) - monthlyPaymentF L interest n =
      schedBal L interest n (k + 1) := by
  have hd : (1 + interest / 12) ^ n - 1 ≠ 0 := by
    have := growth_pow_gt_one hi hn
    intro hz
    linarith [sub_eq_zero.mp hz]
  rw [monthlyPaymentF_def]
  unfold schedBal
  rw [div_mul_eq_mul_div, div_sub_div_same]
  have hnum : L * ((1 + interest / 12) ^ n - (1 + interest / 12) ^ k) * (1 + interest / 12) -
      L * (interest / 12 * (1 + interest / 12) ^ n) =
      L * ((1 + interest / 12) ^ n - (1 + interest / 12) ^ (k + 1)) := by ring
  rw [hnum]

theorem mp_lower {L interest : ℚ} (hL : 0 < L) (hi : 0 < interest) {n : ℕ} (hn : n ≠ 0) :
    L * interest / 12 ≤ monthlyPaymentF L interest n := by
  have hd : 0 < (1 + interest / 12) ^ n - 1 := by linarith [growth_pow_gt_one hi hn]
  rw [monthlyPaymentF_def, le_div_iff₀ hd]
  have h1 : 0 < L * (interest / 12) := by positivity
  have h2 : L * interest / 12 * ((1 + interest / 12) ^ n - 1) =
      L * (interest / 12 * (1 + interest / 12) ^ n) - L * (interest / 12) := by ring
  linarith

theorem monthStep_bound {interest mp extra L : ℚ} (hi : 0 < interest) (hL : 0 < L)
    (hex : 0 ≤ extra) {n : ℕ} (hn : n ≠ 0) (hmp : mp = monthlyPaymentF L interest n)
    {k : ℕ} (hk : k + 1 ≤ n) {p t : ℚ} (hp : p ≤ schedBal L interest n k) :
    (monthStep interest mp extra p t).2.1 ≤ schedBal L interest n (k + 1) := by
  have hB1 : 0 ≤ schedBal L interest n (k + 1) := schedBal_nonneg (le_of_lt hL) hi hn hk
  have hkey : schedBal L interest n k * (1 + interest / 12) - mp =
      schedBal L interest n (k + 1) := by
    rw [hmp]
    exact schedBal_succ hi hn k
  rcases monthStep_stepRel interest mp extra p t with ⟨h₁, h₂, h₃⟩
  rw [← monthStep_principal_eq, h₃]
  split
  · exact hB1
  · rw [h₂, h₁]
    split
    · simpa using hB1
    · have hc : (0:ℚ) ≤ 1 + interest / 12 := by linarith
      have hmul : p * (1 + interest / 12) ≤ schedBal L interest n k * (1 + interest / 12) :=
        mul_le_mul_of_nonneg_right hp hc
      have hexp : p * (1 + interest / 12) = p + p * interest / 12 := by ring
      linarith

theorem innerLoop_final_nonneg (interest mp extra : ℚ) :
    ∀ (j : ℕ) (p t : ℚ), 0 ≤ p → 0 ≤ (innerLoop interest mp extra j p t).2.1 := by
  intro j
  induction j with
  | zero => intro p t h0; exact h0
  | succ j ih =>
    intro p t h0
    have hnn : 0 ≤ (monthStep interest mp extra p t).2.1 := by
      rw [← monthStep_principal_eq]
      exact stepRel_principal_nonneg (monthStep_stepRel interest mp extra p t)
    simp only [innerLoop]
    split
    · exact hnn
    · exact ih _ _ hnn

theorem innerLoop_bound {interest mp extra L : ℚ} (hi : 0 < interest) (hL : 0 < L)
    (hex : 0 ≤ extra) {n : ℕ} (hn : n ≠ 0) (hmp : mp = monthlyPaymentF L interest n) :
    ∀ (j k : ℕ) (p t : ℚ), 0 ≤ p → p ≤ schedBal L interest n k → k + j ≤ n →
      (innerLoop interest mp extra j p t).2.1 ≤ EPSILON ∨
        (innerLoop interest mp extra j p t).2.1 ≤ schedBal L interest n (k + j) := by
  intro j
  induction j with
  | zero => intro k p t h0 hp hkn; right; simpa using hp
  | succ j ih =>
    intro k p t h0 hp hkn
    simp only [innerLoop]
    split
    · next hle => left; exact hle
    · have hk1 : k + 1 ≤ n := by omega
      have hs : (monthStep interest mp extra p t).2.1 ≤ schedBal L interest n (k + 1) :=
        monthStep_bound hi hL hex hn hmp hk1 hp
      have hnn : 0 ≤ (monthStep interest mp extra p t).2.1 := by
        rw [← monthStep_principal_eq]
        exact stepRel_principal_nonneg (monthStep_stepRel interest mp extra p t)
      have hres := ih (k + 1) (monthStep interest mp extra p t).2.1
        (monthStep interest mp extra p t).2.2 hnn hs (by omega)
      rw [show k + (j + 1) = k + 1 + j from by omega]
      exact hres

theorem outerLoop_term {interest mp extra L : ℚ} (hi : 0 < interest) (hL : 0 < L)
    (hex : 0 ≤ extra) {n : ℕ} (hn : n ≠ 0) (hmp : mp = monthlyPaymentF L interest n) :
    ∀ (y k : ℕ) (p t : ℚ), 0 ≤ p → p ≤ schedBal L interest n k → k + 12 * y = n →
      (outerLoop interest mp extra y p t).2.1 ≤ EPSILON := by
  intro y
  induction y with
  | zero =>
    intro k p t h0 hp hkn
    have hkn' : k = n := by omega
    subst hkn'
    rw [schedBal_last] at hp
    show p ≤ EPSILON
    linarith [epsilon_pos]
  | succ y ih =>
    intro k p t h0 hp hkn
    simp only [outerLoop]
    split
    · next hle => exact hle
    · have hk12 : k + 12 ≤ n := by omega
      rcases innerLoop_bound hi hL hex hn hmp 12 k p t h0 hp hk12 with hle | hbb
      · show (outerLoop interest mp extra y _ _).2.1 ≤ EPSILON
        rw [outerLoop_stops interest mp extra y _ _ hle]
        exact hle
      · have hnn : 0 ≤ (innerLoop interest mp extra 12 p t).2.1 :=
          innerLoop_final_nonneg interest mp extra 12 p t h0
        exact ih (k + 12) _ _ hnn hbb (by omega)

theorem termYears_pos (loanTerm : Fin 2) : 0 < termYears loanTerm := by
  unfold termYears
  split <;> norm_num

theorem calcSim_final_le (loanAmount interest : ℚ) (loanTerm : Fin 2) (extraPrincipal : ℚ)
    (hla : 0 < loanAmount) (hi : 0 < interest) (hex : 0 ≤ extraPrincipal) :
    (calcSim loanAmount interest loanTerm extraPrincipal).2.1 ≤ EPSILON ∧
      0 ≤ (calcSim loanAmount interest loanTerm extraPrincipal).2.1 := by
  have hn : termYears loanTerm * 12 ≠ 0 := by
    have := termYears_pos loanTerm
    omega
  constructor
  · apply outerLoop_term hi hla hex hn rfl (termYears loanTerm) 0 loanAmount 0 (le_of_lt hla)
    · rw [schedBal_zero hi hn]
    · omega
  · have hpay : loanAmount * interest / 12 ≤
        monthlyPaymentF loanAmount interest (termYears loanTerm * 12) + extraPrincipal :=
      le_trans (mp_lower hla hi hn) (le_add_of_nonneg_right hex)
    exact (outerLoop_final_bounds interest _ extraPrincipal loanAmount (le_of_lt hi) hpay
      (termYears loanTerm) loanAmount 0 (le_of_lt hla) (le_refl loanAmount)).1

/- ------------------------------------------------------------------ -/
/- Walking the step-relation chain                                     -/
/- ------------------------------------------------------------------ -/

theorem chain_mono {interest mp extra P0 : ℚ} (hi : 0 ≤ interest)
    (hpay : P0 * interest / 12 ≤ mp + extra) :
    ∀ (ms : List MonthlyEntry) (e0 : MonthlyEntry),
      List.Chain (fun a b => stepRel interest mp extra a.principal b) e0 ms →
      0 ≤ e0.principal → e0.principal ≤ P0 →
      List.Chain' (fun a b => b.principal ≤ a.principal) ms ∧
        ∀ e ∈ ms, 0 ≤ e.principal ∧ e.principal ≤ e0.principal := by
  intro ms
  induction ms with
  | nil => intro e0 hch h0 hP; exact ⟨List.chain'_nil, by simp⟩
  | cons e ms ih =>
    intro e0 hch h0 hP
    rcases hch with _ | ⟨hse, hch'⟩
    have he0 : 0 ≤ e.principal := stepRel_principal_nonneg hse
    have hele : e.principal ≤ e0.principal := stepRel_principal_le hse h0 hP hi hpay
    rcases ih e hch' he0 (le_trans hele hP) with ⟨hc', hall⟩
    constructor
    · rw [List.chain'_cons']
      refine ⟨?_, hc'⟩
      intro b hb
      exact (hall b (List.mem_of_mem_head? hb)).2
    · intro x hx
      rcases List.mem_cons.mp hx with rfl | hx'
      · exact ⟨he0, hele⟩
      · rcases hall x hx' with ⟨hx0, hxle⟩
        exact ⟨hx0, le_trans hxle hele⟩

theorem chain_members_snap {interest mp extra : ℚ} :
    ∀ (ms : List MonthlyEntry) (e0 : MonthlyEntry),
      List.Chain (fun a b => stepRel interest mp extra a.principal b) e0 ms →
      ∀ e ∈ ms, e.principal ≤ EPSILON → e.principal = 0 := by
  intro ms
  induction ms with
  | nil => intro e0 hch e he; exact absurd he (List.not_mem_nil e)
  | cons a ms ih =>
    intro e0 hch e he hle
    rcases hch with _ | ⟨hse, hch'⟩
    rcases List.mem_cons.mp he with rfl | he'
    · exact stepRel_snap hse hle
    · exact ih a hch' e he' hle

theorem chain_residue {interest mp extra : ℚ} :
    ∀ (ms : List MonthlyEntry) (e0 : MonthlyEntry),
      List.Chain (fun a b => stepRel interest mp extra a.principal b) e0 ms →
      ms ≠ [] →
      (∀ e ∈ ms.dropLast, EPSILON < e.principal) →
      e0.principal - (ms.map (fun e => e.principalPayment)).sum =
        lastD (ms.dropLast.map (fun e => e.principal)) e0.principal -
          lastD (ms.map (fun e => e.principalPayment)) 0 := by
  intro ms
  induction ms with
  | nil => intro e0 hch hne hdrop; exact absurd rfl hne
  | cons e ms ih =>
    intro e0 hch hne hdrop
    rcases hch with _ | ⟨hse, hch'⟩
    cases ms with
    | nil => simp [lastD_cons, lastD_nil]
    | cons e2 ms2 =>
      have hdrop' : ∀ x ∈ (e2 :: ms2).dropLast, EPSILON < x.principal := by
        intro x hx
        apply hdrop
        rw [List.dropLast_cons₂]
        exact List.mem_cons_of_mem e hx
      have hegt : EPSILON < e.principal := by
        apply hdrop
        rw [List.dropLast_cons₂]
        exact List.mem_cons_self e _
      have hpre : e.principal = e0.principal - e.principalPayment :=
        stepRel_gt_presnap hse hegt
      have hIH := ih e hch' (by simp) hdrop'
      simp only [List.dropLast_cons₂, List.map_cons, List.sum_cons, lastD_cons] at hIH ⊢
      linarith [hIH, hpre]

/- ------------------------------------------------------------------ -/
/- Further shared lemmas                                               -/
/- ------------------------------------------------------------------ -/

theorem sum_map_add' (l : List MonthlyEntry) (f g : MonthlyEntry → ℚ) :
    (l.map (fun e => f e + g e)).sum = (l.map f).sum + (l.map g).sum := by
  induction l with
  | nil => simp
  | cons a l ih =>
    simp only [List.map_cons, List.sum_cons, ih]
    ring

theorem outerLoop_chunks_ne_nil (interest mp extra : ℚ) :
    ∀ (fuel : ℕ) (p t : ℚ), ∀ c ∈ (outerLoop interest mp extra fuel p t).1, c ≠ [] := by
  intro fuel
  induction fuel with
  | zero => intro p t c hc; exact absurd hc (List.not_mem_nil c)
  | succ f ih =>
    intro p t c hc
    revert hc
    simp only [outerLoop]
    split
    · intro hc; exact absurd hc (List.not_mem_nil c)
    · have hcne := innerLoop_ne_nil interest mp extra 12 (by simp) p t
      have hlen : 0 < (innerLoop interest mp extra 12 p t).1.length := List.length_pos.mpr hcne
      dsimp only
      rw [if_pos hlen]
      intro hc
      rcases List.mem_cons.mp hc with rfl | hc'
      · exact hcne
      · exact ih _ _ c hc'

theorem npos_of_term (loanTerm : Fin 2) : termYears loanTerm * 12 ≠ 0 := by
  have := termYears_pos loanTerm
  omega

/- For every valid input whose principal exceeds the tolerance, the final
   remaining principal of the simulation is exactly 0 (the last month is
   zero-snapped). -/
theorem calcSim_final_eq_zero (loanAmount interest : ℚ) (loanTerm : Fin 2)
    (extraPrincipal : ℚ) (hla : 0 < loanAmount) (hi : 0 < interest)
    (hex : 0 ≤ extraPrincipal) (hgt : EPSILON < loanAmount) :
    (calcSim loanAmount interest loanTerm extraPrincipal).2.1 = 0 := by
  have hmne : (simMonths loanAmount interest loanTerm extraPrincipal) ≠ [] :=
    outerLoop_flatten_ne_nil interest _ extraPrincipal (termYears loanTerm) loanAmount 0 hgt
      (termYears_pos loanTerm).ne'
  have hch := outerLoop_chain interest
    (monthlyPaymentF loanAmount interest (termYears loanTerm * 12)) extraPrincipal
    (termYears loanTerm) loanAmount 0 ⟨0, 0, loanAmount, 0⟩ rfl
  have hlastmap :
      lastD ((simMonths loanAmount interest loanTerm extraPrincipal).map
        (fun e => e.principal)) loanAmount =
      (calcSim loanAmount interest loanTerm extraPrincipal).2.1 :=
    outerLoop_last interest _ extraPrincipal (termYears loanTerm) loanAmount 0
  have hmap :
      lastD ((simMonths loanAmount interest loanTerm extraPrincipal).map
        (fun e => e.principal)) loanAmount =
      (lastD (simMonths loanAmount interest loanTerm extraPrincipal)
        ⟨0, 0, loanAmount, 0⟩).principal :=
    lastD_map (fun e : MonthlyEntry => e.principal)
      (simMonths loanAmount interest loanTerm extraPrincipal)
      (⟨0, 0, loanAmount, 0⟩ : MonthlyEntry)
  have hmem := lastD_mem _ hmne (⟨0, 0, loanAmount, 0⟩ : MonthlyEntry)
  have hfin := (calcSim_final_le loanAmount interest loanTerm extraPrincipal hla hi hex).1
  have hzero : (lastD (simMonths loanAmount interest loanTerm extraPrincipal)
      ⟨0, 0, loanAmount, 0⟩).principal = 0 := by
    apply chain_members_snap _ _ hch _ hmem
    rw [← hmap, hlastmap]
    exact hfin
  rw [← hlastmap, hmap, hzero]

/- ------------------------------------------------------------------ -/
/- Claim theorems                                                      -/
/- ------------------------------------------------------------------ -/

/-- C1: termCode 0 maps to 360 months and termCode 1 to 180; the required
monthly payment equals principal * i * (1+i)^termMonths / ((1+i)^termMonths - 1)
with i = annualRate / 12, computed once before the simulation; and every
recorded month derives its payments from this single constant base payment
(the step relation holds along the whole schedule with the same formula
value). -/
theorem C1_required_payment_formula (loanAmount interest : ℚ) (loanTerm : Fin 2)
    (extraPrincipal : ℚ) :
    termYears 0 * 12 = 360 ∧ termYears 1 * 12 = 180 ∧
    monthlyPaymentF loanAmount interest (termYears loanTerm * 12) =
      loanAmount * (interest / 12) * (1 + interest / 12) ^ (termYears loanTerm * 12) /
        ((1 + interest / 12) ^ (termYears loanTerm * 12) - 1) ∧
    List.Chain
      (fun a b => stepRel interest
        (monthlyPaymentF loanAmount interest (termYears loanTerm * 12)) extraPrincipal
        a.principal b)
      ⟨0, 0, loanAmount, 0⟩
      (simMonths loanAmount interest loanTerm extraPrincipal) := by
  refine ⟨rfl, rfl, ?_, ?_⟩
  · rw [monthlyPaymentF_def]
    ring
  · exact outerLoop_chain interest _ extraPrincipal (termYears loanTerm) loanAmount 0
      ⟨0, 0, loanAmount, 0⟩ rfl

/-- C2: for every valid input the recorded remainingPrincipal values are
non-increasing month over month, the final recorded month's remainingPrincipal
is exactly 0, and (whenever the principal exceeds the 0.01 tolerance, so that
at least one month is simulated) the schedule is non-empty. -/
theorem C2_monotonic_payoff (loanAmount interest : ℚ) (loanTerm : Fin 2)
    (extraPrincipal : ℚ) (hla : 0 < loanAmount) (hi : 0 < interest)
    (hex : 0 ≤ extraPrincipal) :
    List.Chain' (fun a b => b.principal ≤ a.principal)
      (simMonths loanAmount interest loanTerm extraPrincipal) ∧
    lastD ((simMonths loanAmount interest loanTerm extraPrincipal).map
      (fun e => e.principal)) 0 = 0 ∧
    (EPSILON < loanAmount → simMonths loanAmount interest loanTerm extraPrincipal ≠ []) := by
  have hn := npos_of_term loanTerm
  have hpay : loanAmount * interest / 12 ≤
      monthlyPaymentF loanAmount interest (termYears loanTerm * 12) + extraPrincipal :=
    le_trans (mp_lower hla hi hn) (le_add_of_nonneg_right hex)
  have hch := outerLoop_chain interest
    (monthlyPaymentF loanAmount interest (termYears loanTerm * 12)) extraPrincipal
    (termYears loanTerm) loanAmount 0 ⟨0, 0, loanAmount, 0⟩ rfl
  refine ⟨?_, ?_, ?_⟩
  · exact (chain_mono (le_of_lt hi) hpay _ _ hch (le_of_lt hla) (le_refl loanAmount)).1
  · by_cases hgt : EPSILON < loanAmount
    · have hmne : (simMonths loanAmount interest loanTerm extraPrincipal) ≠ [] :=
        outerLoop_flatten_ne_nil interest _ extraPrincipal (termYears loanTerm) loanAmount 0
          hgt (termYears_pos loanTerm).ne'
      have hmapne : ((simMonths loanAmount interest loanTerm extraPrincipal).map
          (fun e => e.principal)) ≠ [] := by
        simpa using hmne
      rw [lastD_irrel _ hmapne 0 loanAmount]
      have hlastmap :
          lastD ((simMonths loanAmount interest loanTerm extraPrincipal).map
            (fun e => e.principal)) loanAmount =
          (calcSim loanAmount interest loanTerm extraPrincipal).2.1 :=
        outerLoop_last interest _ extraPrincipal (termYears loanTerm) loanAmount 0
      rw [hlastmap]
      exact calcSim_final_eq_zero loanAmount interest loanTerm extraPrincipal hla hi hex hgt
    · push_neg at hgt
      have : simMonths loanAmount interest loanTerm extraPrincipal = [] := by
        show ((outerLoop interest _ extraPrincipal (termYears loanTerm) loanAmount 0).1).flatten
          = []
        rw [outerLoop_stops interest _ extraPrincipal (termYears loanTerm) loanAmount 0 hgt]
        rfl
      rw [this]
      rfl
  · intro hgt
    exact outerLoop_flatten_ne_nil interest _ extraPrincipal (termYears loanTerm) loanAmount 0
      hgt (termYears_pos loanTerm).ne'

set_option maxRecDepth 1000000 in
set_option exponentiation.threshold 400 in
/-- C2 witness: at principal 100, rate 7 percent, 30-year term, extra payment
1000000, the hypotheses hold and the conclusion is as stated (the loan pays
off in one clamped month). -/
theorem C2_witness :
    (0:ℚ) < 100 ∧ (0:ℚ) < 7 / 100 ∧ (0:ℚ) ≤ 1000000 ∧
    (List.Chain' (fun a b => b.principal ≤ a.principal)
        (simMonths 100 (7 / 100) 0 1000000) ∧
      lastD ((simMonths 100 (7 / 100) 0 1000000).map (fun e => e.principal)) 0 = 0 ∧
      (EPSILON < 100 → simMonths 100 (7 / 100) 0 1000000 ≠ [])) :=
  ⟨by with_unfolding_all decide, by with_unfolding_all decide, by with_unfolding_all decide,
    C2_monotonic_payoff 100 (7 / 100) 0 1000000 (by with_unfolding_all decide)
      (by with_unfolding_all decide) (by with_unfolding_all decide)⟩

/-- C3: the accumulated totalPaid of the simulation equals the sum of
interestPayment + principalPayment over every recorded month, and the
totalPaid field of the result is exactly the JavaScript rounding of that sum
(no leakage or double-counting).  This holds for all inputs. -/
theorem C3_conservation (loanAmount interest : ℚ) (loanTerm : Fin 2)
    (extraPrincipal : ℚ) :
    (calcSim loanAmount interest loanTerm extraPrincipal).2.2 =
      ((simMonths loanAmount interest loanTerm extraPrincipal).map
        (fun e => e.interestPayment + e.principalPayment)).sum ∧
    (calculate loanAmount interest loanTerm extraPrincipal).totalPaid =
      jsRound (((simMonths loanAmount interest loanTerm extraPrincipal).map
        (fun e => e.interestPayment + e.principalPayment)).sum) := by
  have h := outerLoop_totalPaid interest
    (monthlyPaymentF loanAmount interest (termYears loanTerm * 12)) extraPrincipal
    (termYears loanTerm) loanAmount 0
  rw [zero_add] at h
  have h2 : (calcSim loanAmount interest loanTerm extraPrincipal).2.2 =
      ((simMonths loanAmount interest loanTerm extraPrincipal).map
        (fun e => e.interestPayment + e.principalPayment)).sum := h
  refine ⟨h2, ?_⟩
  show jsRound (calcSim loanAmount interest loanTerm extraPrincipal).2.2 = _
  rw [h2]

/-- C4 counterexample: principal 0.01 with rate 7 percent, termCode 0 and no
extra payment is a valid input (positive principal, positive rate), yet
totalYears is 0, not 30: the balance is already within the EPSILON tolerance,
so no month is ever simulated. -/
theorem C4_counterexample :
    (0:ℚ) < 1 / 100 ∧ (0:ℚ) < 7 / 100 ∧
    (calculate (1 / 100) (7 / 100) 0 0).totalYears = 0 ∧
    (calculate (1 / 100) (7 / 100) 0 0).totalYears ≠ 30 := by
  with_unfolding_all decide

/-- C4 amended: for every valid input (any extraPayment ≥ 0) the simulation
terminates within the nominal term — the final balance is within EPSILON —
and totalYears is at most 30 for termCode 0 (at most 15 for termCode 1);
with extraPayment = 0 totalYears can fall short of the nominal value when the
balance reaches the EPSILON tolerance early (e.g. principal = 0.01 yields
totalYears = 0). -/
theorem C4_termination_and_bound (loanAmount interest : ℚ) (loanTerm : Fin 2)
    (extraPrincipal : ℚ) (hla : 0 < loanAmount) (hi : 0 < interest)
    (hex : 0 ≤ extraPrincipal) :
    (calculate loanAmount interest loanTerm extraPrincipal).totalYears ≤ termYears loanTerm ∧
    (calcSim loanAmount interest loanTerm extraPrincipal).2.1 ≤ EPSILON := by
  constructor
  · show (calcSim loanAmount interest loanTerm extraPrincipal).1.length ≤ termYears loanTerm
    exact outerLoop_len_le interest _ extraPrincipal (termYears loanTerm) loanAmount 0
  · exact (calcSim_final_le loanAmount interest loanTerm extraPrincipal hla hi hex).1

/-- C4 witness: the amended statement instantiated at principal 100, rate
7 percent, termCode 0, extra payment 1000000. -/
theorem C4_witness :
    (0:ℚ) < 100 ∧ (0:ℚ) < 7 / 100 ∧ (0:ℚ) ≤ 1000000 ∧
    ((calculate 100 (7 / 100) 0 1000000).totalYears ≤ termYears 0 ∧
      (calcSim 100 (7 / 100) 0 1000000).2.1 ≤ EPSILON) :=
  ⟨by with_unfolding_all decide, by with_unfolding_all decide, by with_unfolding_all decide,
    C4_termination_and_bound 100 (7 / 100) 0 1000000 (by with_unfolding_all decide)
      (by with_unfolding_all decide) (by with_unfolding_all decide)⟩

/-- C5 counterexample: at principal -1 (with otherwise ordinary fields) the
submission does NOT fail with the InvalidPrincipal message: the `!loanAmount`
check only rejects NaN and 0, so a negative principal passes validation and
the engine runs. -/
theorem C5_counterexample :
    handleSubmit (some (-1)) (some 7) (some 0) 0 ≠
      Outcome.failure "Loan amount is invalid" := by
  with_unfolding_all decide

/-- C5 amended: for every input whose principal is NaN or zero, computation
halts before the engine runs and the InvalidPrincipal message is reported
regardless of the other field values; a negative principal, however, is not
rejected. -/
theorem C5_invalid_principal (loanAmountN interestN extraN : Option ℚ) (loanTerm : Fin 2)
    (h : loanAmountN = none ∨ loanAmountN = some 0) :
    handleSubmit loanAmountN interestN extraN loanTerm =
      Outcome.failure "Loan amount is invalid" := by
  rcases h with rfl | rfl
  · rfl
  · simp [handleSubmit, numInvalid]

/-- C5 witness: a NaN principal is rejected with the InvalidPrincipal
message. -/
theorem C5_witness :
    ((none : Option ℚ) = none ∨ (none : Option ℚ) = some 0) ∧
    handleSubmit none (some 7) (some 0) 0 = Outcome.failure "Loan amount is invalid" :=
  ⟨Or.inl rfl, C5_invalid_principal none (some 7) (some 0) 0 (Or.inl rfl)⟩

/-- C6 counterexample: with a valid principal and annual rate -1200 percent
(a negative rate), the submission does NOT fail with the InvalidRate message:
the `!interest` check only rejects NaN and 0, so a negative rate passes
validation and the engine runs. -/
theorem C6_counterexample :
    handleSubmit (some 100) (some (-1200)) (some 0) 0 ≠
      Outcome.failure "Interest is invalid" := by
  with_unfolding_all decide

/-- C6 amended: for every input whose principal passes validation and whose
annual rate is NaN or zero, computation halts before the engine runs and the
InvalidRate message is reported; a negative rate, however, is not rejected. -/
theorem C6_invalid_rate (loanAmountN interestN extraN : Option ℚ) (loanTerm : Fin 2)
    (hla : numInvalid loanAmountN = false)
    (h : interestN = none ∨ interestN = some 0) :
    handleSubmit loanAmountN interestN extraN loanTerm =
      Outcome.failure "Interest is invalid" := by
  have hscaled : numInvalid (interestN.map (fun q => q * (1 / 100))) = true := by
    rcases h with rfl | rfl
    · rfl
    · show ((0:ℚ) * (1 / 100) == 0) = true
      simp
  simp only [handleSubmit]
  rw [hla, hscaled]
  simp

/-- C6 witness: principal 1 with a zero rate is rejected with the InvalidRate
message. -/
theorem C6_witness :
    numInvalid (some 1) = false ∧
    handleSubmit (some 1) (some 0) (some 0) 0 = Outcome.failure "Interest is invalid" :=
  ⟨by with_unfolding_all decide,
    C6_invalid_rate (some 1) (some 0) (some 0) 0 (by with_unfolding_all decide) (Or.inr rfl)⟩

/-- C7: validation short-circuits in the fixed order principal → rate →
extraPayment, so exactly one failure message — the first failing check's — is
reported, and when all three checks pass the engine result is returned. -/
theorem C7_validation_order (loanAmountN interestN extraN : Option ℚ) (loanTerm : Fin 2) :
    (numInvalid loanAmountN = true →
      handleSubmit loanAmountN interestN extraN loanTerm =
        Outcome.failure "Loan amount is invalid") ∧
    (numInvalid loanAmountN = false →
      numInvalid (interestN.map (fun q => q * (1 / 100))) = true →
      handleSubmit loanAmountN interestN extraN loanTerm =
        Outcome.failure "Interest is invalid") ∧
    (numInvalid loanAmountN = false →
      numInvalid (interestN.map (fun q => q * (1 / 100))) = false →
      extraPaymentInvalid extraN = true →
      handleSubmit loanAmountN interestN extraN loanTerm =
        Outcome.failure "Extra monthly payment is invalid") ∧
    (numInvalid loanAmountN = false →
      numInvalid (interestN.map (fun q => q * (1 / 100))) = false →
      extraPaymentInvalid extraN = false →
      handleSubmit loanAmountN interestN extraN loanTerm =
        Outcome.success (calculate (loanAmountN.getD 0) (interestN.getD 0 * (1 / 100))
          loanTerm (extraN.getD 0))) := by
  refine ⟨?_, ?_, ?_, ?_⟩
  · intro h1
    simp only [handleSubmit]
    rw [h1]
    simp
  · intro h1 h2
    simp only [handleSubmit]
    rw [h1, h2]
    simp
  · intro h1 h2 h3
    simp only [handleSubmit]
    rw [h1, h2, h3]
    simp
  · intro h1 h2 h3
    simp only [handleSubmit]
    rw [h1, h2, h3]
    simp

/-- C7 witness: with all three fields invalid (NaN principal, NaN rate,
negative extra payment), exactly the first check's message is reported. -/
theorem C7_witness :
    numInvalid none = true ∧ extraPaymentInvalid (some (-5)) = true ∧
    handleSubmit none none (some (-5)) 0 = Outcome.failure "Loan amount is invalid" :=
  ⟨rfl, by with_unfolding_all decide,
    (C7_validation_order none none (some (-5)) 0).1 rfl⟩

/-- C8: two submissions agreeing on principal, annualRate and termCode and
differing only in extraPayment yield the same requiredMonthlyPayment: the
monthlyPayment field of the result does not depend on the extra payment (it
is derived from the base formula alone and never re-derived during the
simulation). -/
theorem C8_payment_independent_of_extra (loanAmount interest : ℚ) (loanTerm : Fin 2)
    (extra1 extra2 : ℚ) :
    (calculate loanAmount interest loanTerm extra1).monthlyPayment =
      (calculate loanAmount interest loanTerm extra2).monthlyPayment := rfl

set_option maxRecDepth 1000000 in
set_option exponentiation.threshold 400 in
/-- C9 counterexample: at principal 100, rate 7 percent, termCode 0, extra
payment 1000000, the year entries of the returned table do NOT equal the
unrounded per-month averages: the single-month chunk has average interest
7/12, while the table reports the rounded sum 1. -/
theorem C9_counterexample :
    (calculate 100 (7 / 100) 0 1000000).tableData.map (fun r => (r.interest : ℚ)) ≠
      (calcSim 100 (7 / 100) 0 1000000).1.map
        (fun c => yearInterest c / (c.length : ℚ)) := by
  with_unfolding_all decide

/-- C9 amended: the chart datasets report each year-chunk's unrounded
per-month averages (sum over the chunk divided by its month count), while the
table rows report the Math.round of the chunk sums, and each row's ending
balance is the Math.round of the chunk's last month's remainingPrincipal —
0 in the final row for every valid input, since the balance reaches exactly
0. -/
theorem C9_yearly_aggregation (loanAmount interest : ℚ) (loanTerm : Fin 2)
    (extraPrincipal : ℚ) (hla : 0 < loanAmount) (hi : 0 < interest)
    (hex : 0 ≤ extraPrincipal) :
    (calculate loanAmount interest loanTerm extraPrincipal).chartInterest =
      (calcSim loanAmount interest loanTerm extraPrincipal).1.map
        (fun c => yearInterest c / (c.length : ℚ)) ∧
    (calculate loanAmount interest loanTerm extraPrincipal).chartPrincipal =
      (calcSim loanAmount interest loanTerm extraPrincipal).1.map
        (fun c => yearPrincipal c / (c.length : ℚ)) ∧
    (calculate loanAmount interest loanTerm extraPrincipal).tableData =
      (calcSim loanAmount interest loanTerm extraPrincipal).1.map
        (fun c => { interest := jsRound (yearInterest c)
                    principal := jsRound (yearPrincipal c)
                    principalBalance := jsRound (lastPrincipal c) }) ∧
    lastD ((calculate loanAmount interest loanTerm extraPrincipal).tableData.map
      (fun r => r.principalBalance)) 0 = 0 := by
  refine ⟨rfl, rfl, rfl, ?_⟩
  have htab : (calculate loanAmount interest loanTerm extraPrincipal).tableData =
      (calcSim loanAmount interest loanTerm extraPrincipal).1.map
        (fun c => { interest := jsRound (yearInterest c)
                    principal := jsRound (yearPrincipal c)
                    principalBalance := jsRound (lastPrincipal c) : YearRow }) := rfl
  rw [htab]
  by_cases hpe : (calcSim loanAmount interest loanTerm extraPrincipal).1 = []
  · rw [hpe]
    rfl
  · have hgt : EPSILON < loanAmount := by
      by_contra hle
      push_neg at hle
      apply hpe
      show (outerLoop interest _ extraPrincipal (termYears loanTerm) loanAmount 0).1 = []
      rw [outerLoop_stops interest _ extraPrincipal (termYears loanTerm) loanAmount 0 hle]
    have hfz := calcSim_final_eq_zero loanAmount interest loanTerm extraPrincipal hla hi
      hex hgt
    have hlc := outerLoop_lastChunk interest
      (monthlyPaymentF loanAmount interest (termYears loanTerm * 12)) extraPrincipal
      (termYears loanTerm) loanAmount 0
    rw [List.map_map]
    have hcomp : ((fun r : YearRow => r.principalBalance) ∘
        (fun c => { interest := jsRound (yearInterest c)
                    principal := jsRound (yearPrincipal c)
                    principalBalance := jsRound (lastPrincipal c) : YearRow })) =
        fun c => jsRound (lastPrincipal c) := rfl
    rw [hcomp]
    have hz : jsRound (lastPrincipal ([] : List MonthlyEntry)) = 0 := by
      show jsRound 0 = 0
      unfold jsRound
      norm_num
    have hmapne : ((calcSim loanAmount interest loanTerm extraPrincipal).1.map
        (fun c => jsRound (lastPrincipal c))) ≠ [] := by
      simpa using hpe
    rw [lastD_irrel _ hmapne 0 (jsRound (lastPrincipal ([] : List MonthlyEntry)))]
    have hmm : (fun c => jsRound (lastPrincipal c)) =
        (fun q => jsRound q) ∘ lastPrincipal := rfl
    rw [hmm, ← List.map_map]
    have hlast2 := lastD_map (fun q : ℚ => jsRound q)
      ((calcSim loanAmount interest loanTerm extraPrincipal).1.map lastPrincipal)
      (lastPrincipal ([] : List MonthlyEntry))
    show lastD (((calcSim loanAmount interest loanTerm extraPrincipal).1.map
      lastPrincipal).map (fun q => jsRound q)) (jsRound (lastPrincipal [])) = 0
    rw [hlast2]
    have hpne : ((calcSim loanAmount interest loanTerm extraPrincipal).1.map
        lastPrincipal) ≠ [] := by simpa using hpe
    have : lastPrincipal ([] : List MonthlyEntry) = 0 := rfl
    rw [this]
    have hlc' : lastD ((calcSim loanAmount interest loanTerm extraPrincipal).1.map
        lastPrincipal) loanAmount =
        (calcSim loanAmount interest loanTerm extraPrincipal).2.1 := hlc
    rw [lastD_irrel _ hpne 0 loanAmount, hlc', hfz]
    unfold jsRound
    norm_num

set_option maxRecDepth 1000000 in
set_option exponentiation.threshold 400 in
/-- C9 witness: the amended statement instantiated at principal 100, rate
7 percent, termCode 0, extra payment 1000000. -/
theorem C9_witness :
    (0:ℚ) < 100 ∧ (0:ℚ) < 7 / 100 ∧ (0:ℚ) ≤ 1000000 ∧
    lastD ((calculate 100 (7 / 100) 0 1000000).tableData.map
      (fun r => r.principalBalance)) 0 = 0 :=
  ⟨by with_unfolding_all decide, by with_unfolding_all decide, by with_unfolding_all decide,
    (C9_yearly_aggregation 100 (7 / 100) 0 1000000 (by with_unfolding_all decide)
      (by with_unfolding_all decide) (by with_unfolding_all decide)).2.2.2⟩

/-- C10: for every valid input, the recorded principalPayment values sum to
the original principal minus a residue r with 0 ≤ r ≤ EPSILON; totalPaid
counts exactly the recorded interest plus the recorded principal (so it
excludes the snapped residue); and r = 0 exactly when the final month's
principalPayment equals the balance remaining before that month (the
early-payoff clamp). -/
theorem C10_principal_residue (loanAmount interest : ℚ) (loanTerm : Fin 2)
    (extraPrincipal : ℚ) (hla : 0 < loanAmount) (hi : 0 < interest)
    (hex : 0 ≤ extraPrincipal) :
    0 ≤ loanAmount - yearPrincipal (simMonths loanAmount interest loanTerm extraPrincipal) ∧
    loanAmount - yearPrincipal (simMonths loanAmount interest loanTerm extraPrincipal)
      ≤ EPSILON ∧
    (calcSim loanAmount interest loanTerm extraPrincipal).2.2 =
      yearInterest (simMonths loanAmount interest loanTerm extraPrincipal) +
        yearPrincipal (simMonths loanAmount interest loanTerm extraPrincipal) ∧
    (loanAmount - yearPrincipal (simMonths loanAmount interest loanTerm extraPrincipal) = 0 ↔
      lastD ((simMonths loanAmount interest loanTerm extraPrincipal).map
        (fun e => e.principalPayment)) 0 =
      lastD (((simMonths loanAmount interest loanTerm extraPrincipal).dropLast).map
        (fun e => e.principal)) loanAmount) := by
  have hfle := (calcSim_final_le loanAmount interest loanTerm extraPrincipal hla hi hex).1
  have hfnn := (calcSim_final_le loanAmount interest loanTerm extraPrincipal hla hi hex).2
  have hbounds :
      0 ≤ loanAmount - yearPrincipal (simMonths loanAmount interest loanTerm extraPrincipal) ∧
      loanAmount - yearPrincipal (simMonths loanAmount interest loanTerm extraPrincipal)
        ≤ EPSILON := by
    rcases outerLoop_sumPP interest
      (monthlyPaymentF loanAmount interest (termYears loanTerm * 12)) extraPrincipal
      (termYears loanTerm) loanAmount 0 with hres | ⟨h1, h2, -⟩
    · have hres' : loanAmount -
          yearPrincipal (simMonths loanAmount interest loanTerm extraPrincipal) =
          (calcSim loanAmount interest loanTerm extraPrincipal).2.1 := hres
      rw [hres']
      exact ⟨hfnn, hfle⟩
    · have h1' : 0 ≤ loanAmount -
          yearPrincipal (simMonths loanAmount interest loanTerm extraPrincipal) := h1
      have h2' : loanAmount -
          yearPrincipal (simMonths loanAmount interest loanTerm extraPrincipal) ≤ EPSILON := h2
      exact ⟨h1', h2'⟩
  refine ⟨hbounds.1, hbounds.2, ?_, ?_⟩
  · have h := outerLoop_totalPaid interest
      (monthlyPaymentF loanAmount interest (termYears loanTerm * 12)) extraPrincipal
      (termYears loanTerm) loanAmount 0
    rw [zero_add] at h
    have h' : (calcSim loanAmount interest loanTerm extraPrincipal).2.2 =
        ((simMonths loanAmount interest loanTerm extraPrincipal).map
          (fun e => e.interestPayment + e.principalPayment)).sum := h
    exact h'.trans (sum_map_add' _ _ _)
  · by_cases hgt : EPSILON < loanAmount
    · have hmne : (simMonths loanAmount interest loanTerm extraPrincipal) ≠ [] :=
        outerLoop_flatten_ne_nil interest _ extraPrincipal (termYears loanTerm) loanAmount 0
          hgt (termYears_pos loanTerm).ne'
      have hch := outerLoop_chain interest
        (monthlyPaymentF loanAmount interest (termYears loanTerm * 12)) extraPrincipal
        (termYears loanTerm) loanAmount 0 ⟨0, 0, loanAmount, 0⟩ rfl
      have hdrop := outerLoop_dropLast_gt interest
        (monthlyPaymentF loanAmount interest (termYears loanTerm * 12)) extraPrincipal
        (termYears loanTerm) loanAmount 0
      have hE := chain_residue (simMonths loanAmount interest loanTerm extraPrincipal)
        ⟨0, 0, loanAmount, 0⟩ hch hmne hdrop
      show loanAmount - ((simMonths loanAmount interest loanTerm extraPrincipal).map
        (fun e => e.principalPayment)).sum = 0 ↔ _
      rw [show (⟨0, 0, loanAmount, 0⟩ : MonthlyEntry).principal = loanAmount from rfl] at hE
      rw [hE]
      rw [sub_eq_zero]
      exact eq_comm
    · push_neg at hgt
      have hnil : simMonths loanAmount interest loanTerm extraPrincipal = [] := by
        show ((outerLoop interest _ extraPrincipal (termYears loanTerm) loanAmount 0).1).flatten
          = []
        rw [outerLoop_stops interest _ extraPrincipal (termYears loanTerm) loanAmount 0 hgt]
        rfl
      rw [hnil]
      show loanAmount - (0:ℚ) = 0 ↔ (0:ℚ) = loanAmount
      rw [sub_zero]
      exact ⟨fun h => h.symm, fun h => h.symm⟩

/-- C10 witness: at principal 100, rate 7 percent, termCode 0, extra payment
1000000, the clamp fires on the (single) final month, the residue is 0, and
the conservation equations hold. -/
theorem C10_witness :
    (0:ℚ) < 100 ∧ (0:ℚ) < 7 / 100 ∧ (0:ℚ) ≤ 1000000 ∧
    (0 ≤ (100:ℚ) - yearPrincipal (simMonths 100 (7 / 100) 0 1000000) ∧
      (100:ℚ) - yearPrincipal (simMonths 100 (7 / 100) 0 1000000) ≤ EPSILON ∧
      (calcSim 100 (7 / 100) 0 1000000).2.2 =
        yearInterest (simMonths 100 (7 / 100) 0 1000000) +
          yearPrincipal (simMonths 100 (7 / 100) 0 1000000) ∧
      ((100:ℚ) - yearPrincipal (simMonths 100 (7 / 100) 0 1000000) = 0 ↔
        lastD ((simMonths 100 (7 / 100) 0 1000000).map (fun e => e.principalPayment)) 0 =
        lastD (((simMonths 100 (7 / 100) 0 1000000).dropLast).map
          (fun e => e.principal)) 100)) :=
  ⟨by with_unfolding_all decide, by with_unfolding_all decide, by with_unfolding_all decide,
    C10_principal_residue 100 (7 / 100) 0 1000000 (by with_unfolding_all decide)
      (by with_unfolding_all decide) (by with_unfolding_all decide)⟩

end Mortgage
